import Mathlib

/-!
Verification of the agenda `Job` lifecycle engine (`src/dist/Job.js`)
against its natural-language specification.

Shallow embedding conventions:
* JavaScript `Date` values are modelled as `Int` epoch milliseconds.
* A field that may be `undefined`/`null` is an `Option`; where the source
  distinguishes `undefined` from `null` (the constructor's
  `args.nextRunAt === undefined` test) the tri-state `JSField` is used.
* Thrown JavaScript values are `JSVal`: a plain value, a constructed
  `Error` object, or a runtime `TypeError` raised by dereferencing
  `undefined` (an unguarded crash, as opposed to a deliberately thrown
  defined error).
* External collaborators (job-type registry, recurrence calculators,
  persistence gateway, event listeners) are an explicit `Env` record of
  oracles; `Except JSVal` models their possible throws.
* `async`/`await` sequencing is linearized: each awaited operation's
  outcome is an `Except` consulted at its program point, and JavaScript
  try/catch/finally control flow is translated case by case.
-/

namespace Agenda

/-- A JavaScript value as far as the engine observes it: a plain (string)
value, an `Error` object carrying a message, or a runtime `TypeError`
produced by dereferencing `undefined`. -/
inductive JSVal
  | str (s : String)
  | errObj (message : String)
  | typeErr (message : String)
deriving DecidableEq, Repr

/-- `v instanceof Error` — both constructed errors and runtime type errors
are instances of `Error`. -/
def JSVal.isError : JSVal → Bool
  | .str _ => false
  | .errObj _ => true
  | .typeErr _ => true

/-- `reason instanceof Error ? reason.message : reason` (Job.js line 117). -/
def JSVal.extractMessage : JSVal → JSVal
  | .str s => .str s
  | .errObj m => .str m
  | .typeErr m => .str m

/-- Tri-state JavaScript field: distinguishes `undefined` from `null`
where the source does (`Job` constructor). -/
inductive JSField (α : Type)
  | undef
  | null
  | val (a : α)
deriving DecidableEq, Repr

/-- Collapse to an `Option` where the source treats `undefined` and `null`
alike (both falsy, both "absent"). -/
def JSField.toOption : JSField α → Option α
  | .undef => none
  | .null => none
  | .val a => some a

/-- The mutable attribute record `this.attrs` of a `Job`
(`JobParameters`). Timestamps are epoch milliseconds (`Int`); `failCount`
is `Option Nat` because the source reads it as `(this.attrs.failCount || 0)`,
i.e. it may start out undefined. -/
structure JobAttrs where
  name : String
  priority : Int
  nextRunAt : Option Int
  lastRunAt : Option Int
  lastFinishedAt : Option Int
  lockedAt : Option Int
  failCount : Option Nat
  failReason : Option JSVal
  failedAt : Option Int
  disabled : Bool
  repeatInterval : Option String
  repeatTimezone : Option String
  repeatAt : Option String
  progress : Option Int
deriving DecidableEq, Repr

/-- A job-type registry entry `{ fn, lockLifetime }`; the handler's
behaviour is part of the execution environment, so only the lease
duration is recorded here. -/
structure Definition where
  lockLifetime : Int
deriving DecidableEq, Repr

/-- Lifecycle events emitted on the agenda event bus: each generic event
has a type-specific variant `event:name`. -/
inductive Ev
  | start
  | startType (name : String)
  | success
  | successType (name : String)
  | failEv
  | failType (name : String)
  | complete
  | completeType (name : String)
deriving DecidableEq, Repr

/-- The engine's external collaborators, fixed for one `run` invocation:
the job-type registry, the two recurrence calculators, the handler's
observable outcome, the two persistence-gateway saves inside `run`
(`saveJobState` before the try block and in the finally block), and the
event listeners, modelled by which emit (if any) throws. -/
structure Env where
  definitions : String → Option Definition
  computeFromInterval : JobAttrs → Except JSVal Int
  computeFromRepeatAt : JobAttrs → Except JSVal Int
  handlerOutcome : Except JSVal Unit
  savePre : Except JSVal Unit
  saveFinal : Except JSVal Unit
  emitThrows : Ev → Option JSVal

/-- `Job.fail(reason)` (Job.js lines 116-124): extract the message,
increment `failCount` (reading an absent count as 0), stamp `failedAt`
and `lastFinishedAt` with the same `new Date()`. -/
def fail (a : JobAttrs) (reason : JSVal) (now : Int) : JobAttrs :=
  { a with
    failReason := some reason.extractMessage
    failCount := some (a.failCount.getD 0 + 1)
    failedAt := some now
    lastFinishedAt := some now }

/-- `Job.computeNextRunAt()` (Job.js lines 205-224): dispatch on
`repeatInterval` then `repeatAt`; a throw from either recurrence
calculator is caught, `nextRunAt` is cleared and `fail` is invoked with
the error. The function is total: no error propagates to the caller. -/
def computeNextRunAt (env : Env) (a : JobAttrs) (now : Int) : JobAttrs :=
  if a.repeatInterval.isSome then
    match env.computeFromInterval a with
    | .ok t => { a with nextRunAt := some t }
    | .error e => fail { a with nextRunAt := none } e now
  else if a.repeatAt.isSome then
    match env.computeFromRepeatAt a with
    | .ok t => { a with nextRunAt := some t }
    | .error e => fail { a with nextRunAt := none } e now
  else
    { a with nextRunAt := none }

/-- Options object of `repeatEvery`. -/
structure RepeatOptions where
  timezone : Option String
  skipImmediate : Bool
deriving DecidableEq, Repr

/-- `Job.repeatEvery(interval, options)` (Job.js lines 48-61): set
`repeatInterval` and `repeatTimezone`; with `skipImmediate`, use the
current `nextRunAt` (or `new Date()` when falsy) as a temporary
`lastRunAt` anchor for the recomputation, then set `lastRunAt` back to
`undefined`. -/
def repeatEvery (env : Env) (a : JobAttrs) (interval : String)
    (options : RepeatOptions) (now : Int) : JobAttrs :=
  let a1 := { a with repeatInterval := some interval
                     repeatTimezone := options.timezone }
  if options.skipImmediate then
    let a2 := { a1 with lastRunAt := some (a1.nextRunAt.getD now) }
    let a3 := computeNextRunAt env a2 now
    { a3 with lastRunAt := none }
  else
    computeNextRunAt env a1 now

/-- `Job.isRunning()` decision table (Job.js lines 143-160), for the
job-processor instance (`byJobProcessor = true`, so no database refresh
precedes the test). -/
def isRunning (a : JobAttrs) : Bool :=
  match a.lastRunAt with
  | none => false
  | some lr =>
    match a.lastFinishedAt with
    | none => true
    | some lf => a.lockedAt.isSome && decide (lf < lr)

/-- `Job.isExpired()` (Job.js lines 183-192). The registry lookup
`this.agenda.definitions[this.attrs.name]` is unguarded: when the entry
is absent, `definition.lockLifetime` dereferences `undefined` and raises
a runtime `TypeError`. Otherwise the lease is expired iff `lockedAt` is
present and `lockedAt < now - lockLifetime`. -/
def isExpired (env : Env) (a : JobAttrs) (now : Int) : Except JSVal Bool :=
  match env.definitions a.name with
  | none =>
      .error (.typeErr "cannot read lockLifetime of undefined definition")
  | some defn =>
    let lockDeadline := now - defn.lockLifetime
    match a.lockedAt with
    | some la => if la < lockDeadline then .ok true else .ok false
    | none => .ok false

/-- `Job.isDead()` (Job.js lines 175-182) for the job-processor instance:
delegates directly to `isExpired`. -/
def isDead (env : Env) (a : JobAttrs) (now : Int) : Except JSVal Bool :=
  isExpired env a now

/-- Result of a `touch` call: the exception it raises (if any), the
attribute state afterwards, and whether `saveJobState` was invoked. -/
structure TouchResult where
  raised : Option JSVal
  attrs : JobAttrs
  storeCalled : Bool
deriving DecidableEq, Repr

/-- `Job.touch(progress)` (Job.js lines 197-204): throw at once when the
external cancellation marker `this.canceled` is set, before any mutation
or store access; otherwise set `lockedAt` to now, record `progress`, and
persist through `saveJobState` (whose own failure propagates). -/
def touch (saveResult : Except JSVal Unit) (canceled : Option String)
    (a : JobAttrs) (progress : Option Int) (now : Int) : TouchResult :=
  if canceled.isSome then
    { raised := some (.errObj ("job " ++ a.name ++ " got canceled already"))
      attrs := a
      storeCalled := false }
  else
    let a1 := { a with lockedAt := some now, progress := progress }
    match saveResult with
    | .ok _ => { raised := none, attrs := a1, storeCalled := true }
    | .error e => { raised := some e, attrs := a1, storeCalled := true }

/-- The specification object accepted by the `Job` constructor. Fields
whose `undefined`/`null` distinction the constructor observes are
`JSField`; the rest are copied through as `Option`s by the spread. -/
structure JobSpecArgs where
  name : String
  priority : Option JSVal
  nextRunAt : JSField Int
  disabled : JSField Bool
  lastRunAt : Option Int
  lastFinishedAt : Option Int
  lockedAt : Option Int
  failCount : Option Nat
  failReason : Option JSVal
  failedAt : Option Int
  repeatInterval : Option String
  repeatTimezone : Option String
  repeatAt : Option String
  progress : Option Int
deriving Repr

/-- The `Job` constructor (Job.js lines 14-27): spread `args`, then
resolve `priority` through the external resolver, default `nextRunAt` to
`new Date()` only when it is strictly `undefined`
(`args.nextRunAt === undefined`), and default `disabled` to `false` when
nullish (`?? false`). -/
def mkJobAttrs (parsePriority : Option JSVal → Int) (args : JobSpecArgs)
    (now : Int) : JobAttrs :=
  { name := args.name
    priority := parsePriority args.priority
    nextRunAt :=
      match args.nextRunAt with
      | .undef => some now
      | .null => none
      | .val t => some t
    disabled :=
      match args.disabled with
      | .val b => b
      | _ => false
    lastRunAt := args.lastRunAt
    lastFinishedAt := args.lastFinishedAt
    lockedAt := args.lockedAt
    failCount := args.failCount
    failReason := args.failReason
    failedAt := args.failedAt
    repeatInterval := args.repeatInterval
    repeatTimezone := args.repeatTimezone
    repeatAt := args.repeatAt
    progress := args.progress }

/-- Emit a sequence of events. Each event is delivered; a listener that
throws aborts the sequence (later events are not emitted) and the thrown
value propagates to the emitting call site. Returns the events actually
emitted and the escaping exception, if any. -/
def emitSeq (env : Env) : List Ev → List Ev × Option JSVal
  | [] => ([], none)
  | ev :: rest =>
    match env.emitThrows ev with
    | some e => ([ev], some e)
    | none =>
      let r := emitSeq env rest
      (ev :: r.1, r.2)

/-- Outcome of one `run()` invocation: the attribute state when control
returns to the dispatcher, the full ordered event trace, the exception
escaping `run` (if any), and the persistence error swallowed (logged
only) by the try/catch around the final `saveJobState` in the finally
block. -/
structure RunResult where
  attrs : JobAttrs
  events : List Ev
  raised : Option JSVal
  finalSaveError : Option JSVal
deriving DecidableEq, Repr

/-- The try block of `run` (Job.js lines 231-267): emit `start` events,
throw the defined `Error('Undefined job')` when the registry entry is
absent (the lookup itself happened earlier and is guarded by this test
before any dereference), run the handler, and on success stamp
`lastFinishedAt` and emit `success` events. Returns the attribute state,
the events emitted so far, and the exception (if any) flowing to the
catch clause. -/
def runTryBlock (env : Env) (defn : Option Definition) (a2 : JobAttrs)
    (tFinish : Int) : JobAttrs × List Ev × Option JSVal :=
  let startE := emitSeq env [Ev.start, Ev.startType a2.name]
  match startE.2 with
  | some e => (a2, startE.1, some e)
  | none =>
    match defn with
    | none => (a2, startE.1, some (JSVal.errObj "Undefined job"))
    | some _ =>
      match env.handlerOutcome with
      | .error e => (a2, startE.1, some e)
      | .ok _ =>
        let a3 := { a2 with lastFinishedAt := some tFinish }
        let succE := emitSeq env [Ev.success, Ev.successType a3.name]
        (a3, startE.1 ++ succE.1, succE.2)

/-- The catch and finally clauses of `run` (Job.js lines 268-289). The
catch invokes `fail` and emits `fail` events (a listener throw there
becomes the pending exception). The finally clears `lockedAt`, attempts
the final `saveJobState` whose error is swallowed (recorded only as
`finalSaveError`, the log), then emits `complete` events; a listener
throw there replaces any pending exception, per JavaScript finally
semantics. -/
def runCatchFinally (env : Env) (tryOut : JobAttrs × List Ev × Option JSVal)
    (tFinish : Int) : RunResult :=
  let afterCatch : JobAttrs × List Ev × Option JSVal :=
    match tryOut.2.2 with
    | none => tryOut
    | some e =>
      let aF := fail tryOut.1 e tFinish
      let failE := emitSeq env [Ev.failEv, Ev.failType aF.name]
      (aF, tryOut.2.1 ++ failE.1, failE.2)
  let aU := { afterCatch.1 with lockedAt := none }
  let logged : Option JSVal :=
    match env.saveFinal with
    | .ok _ => none
    | .error e => some e
  let compE := emitSeq env [Ev.complete, Ev.completeType aU.name]
  { attrs := aU
    events := afterCatch.2.1 ++ compE.1
    raised :=
      match compE.2 with
      | some e => some e
      | none => afterCatch.2.2
    finalSaveError := logged }

/-- `Job.run()` (Job.js lines 225-290), linearized. Order of operations
in the source: look up `definition` in the registry (no dereference
yet); set `lastRunAt` to now; `computeNextRunAt()`; `await saveJobState`
— this save sits OUTSIDE the try/finally, so its rejection escapes `run`
with no event emitted and `lockedAt` intact; then the try/catch/finally
(`runTryBlock`, `runCatchFinally`). Both handler calling conventions
(direct promise, and explicit callback wired through a one-shot
`new Promise` whose first completion wins) funnel their outcome into the
same await point, modelled as `env.handlerOutcome`. -/
def run (env : Env) (a0 : JobAttrs) (tStart tFinish : Int) : RunResult :=
  let defn := env.definitions a0.name
  let a1 := { a0 with lastRunAt := some tStart }
  let a2 := computeNextRunAt env a1 tStart
  match env.savePre with
  | .error e => { attrs := a2, events := [], raised := some e, finalSaveError := none }
  | .ok _ => runCatchFinally env (runTryBlock env defn a2 tFinish) tFinish

/-! ## Concrete fixtures used by witnesses and counterexamples -/

/-- A fresh job record as the constructor would produce it. -/
def jr0 : JobAttrs :=
  { name := "sendEmail"
    priority := 0
    nextRunAt := some 1000
    lastRunAt := none
    lastFinishedAt := none
    lockedAt := none
    failCount := none
    failReason := none
    failedAt := none
    disabled := false
    repeatInterval := none
    repeatTimezone := none
    repeatAt := none
    progress := none }

/-- An environment in which every collaborator behaves nominally. -/
def benignEnv : Env :=
  { definitions := fun _ => some { lockLifetime := 600000 }
    computeFromInterval := fun _ => .ok 5000
    computeFromRepeatAt := fun _ => .ok 6000
    handlerOutcome := .ok ()
    savePre := .ok ()
    saveFinal := .ok ()
    emitThrows := fun _ => none }

/-- Nominal environment whose handler throws synchronously. -/
def throwEnv : Env :=
  { benignEnv with handlerOutcome := .error (.errObj "boom") }

/-- Nominal environment whose pre-execution `saveJobState` rejects. -/
def preSaveErrorEnv : Env :=
  { benignEnv with savePre := .error (.errObj "db down") }

/-- Nominal environment with an empty job-type registry. -/
def noDefsEnv : Env :=
  { benignEnv with definitions := fun _ => none }

/-! ## Helper lemmas -/

/-- `computeNextRunAt` touches the recurrence/failure bookkeeping fields
only: `name`, `lockedAt` and `lastRunAt` always come through unchanged. -/
theorem computeNextRunAt_frame (env : Env) (a : JobAttrs) (now : Int) :
    (computeNextRunAt env a now).name = a.name
  ∧ (computeNextRunAt env a now).lockedAt = a.lockedAt
  ∧ (computeNextRunAt env a now).lastRunAt = a.lastRunAt := by
  cases hI : a.repeatInterval.isSome with
  | true =>
    cases hc : env.computeFromInterval a <;>
      simp [computeNextRunAt, hI, hc, fail]
  | false =>
    cases hA : a.repeatAt.isSome with
    | true =>
      cases hc : env.computeFromRepeatAt a <;>
        simp [computeNextRunAt, hI, hA, hc, fail]
    | false => simp [computeNextRunAt, hI, hA]

/-- The recurrence strategy consulted by `computeNextRunAt` on `a`
returns without throwing. -/
def computeOk (env : Env) (a : JobAttrs) : Bool :=
  if a.repeatInterval.isSome then
    match env.computeFromInterval a with
    | .ok _ => true
    | .error _ => false
  else if a.repeatAt.isSome then
    match env.computeFromRepeatAt a with
    | .ok _ => true
    | .error _ => false
  else true

/-- When the recurrence strategy does not throw, `computeNextRunAt`
changes `nextRunAt` only. -/
theorem computeNextRunAt_fields_of_ok (env : Env) (a : JobAttrs) (now : Int)
    (h : computeOk env a = true) :
    (computeNextRunAt env a now).failCount = a.failCount
  ∧ (computeNextRunAt env a now).failReason = a.failReason
  ∧ (computeNextRunAt env a now).lastFinishedAt = a.lastFinishedAt
  ∧ (computeNextRunAt env a now).name = a.name
  ∧ (computeNextRunAt env a now).lockedAt = a.lockedAt
  ∧ (computeNextRunAt env a now).lastRunAt = a.lastRunAt := by
  cases hI : a.repeatInterval.isSome with
  | true =>
    cases hc : env.computeFromInterval a with
    | error e => simp [computeOk, hI, hc] at h
    | ok t => simp [computeNextRunAt, hI, hc]
  | false =>
    cases hA : a.repeatAt.isSome with
    | true =>
      cases hc : env.computeFromRepeatAt a with
      | error e => simp [computeOk, hI, hA, hc] at h
      | ok t => simp [computeNextRunAt, hI, hA, hc]
    | false => simp [computeNextRunAt, hI, hA]

/-- The try block leaves `name`, `lockedAt` and `failCount` untouched. -/
theorem runTryBlock_frame (env : Env) (defn : Option Definition)
    (a2 : JobAttrs) (t : Int) :
    (runTryBlock env defn a2 t).1.name = a2.name
  ∧ (runTryBlock env defn a2 t).1.lockedAt = a2.lockedAt
  ∧ (runTryBlock env defn a2 t).1.failCount = a2.failCount := by
  unfold runTryBlock
  cases h : (emitSeq env [Ev.start, Ev.startType a2.name]).2 <;>
    cases defn <;> cases env.handlerOutcome <;> simp [h]

/-- The catch/finally stage raises nothing when the `fail` and `complete`
emissions (for the job's type) have no throwing listener. -/
theorem runCatchFinally_raised_none (env : Env)
    (tryOut : JobAttrs × List Ev × Option JSVal) (t : Int)
    (hf1 : env.emitThrows Ev.failEv = none)
    (hf2 : env.emitThrows (Ev.failType tryOut.1.name) = none)
    (hc1 : env.emitThrows Ev.complete = none)
    (hc2 : env.emitThrows (Ev.completeType tryOut.1.name) = none) :
    (runCatchFinally env tryOut t).raised = none := by
  unfold runCatchFinally
  cases h : tryOut.2.2 with
  | none => simp [h, emitSeq, hc1, hc2]
  | some e => simp [h, emitSeq, fail, hf1, hf2, hc1, hc2]

/-! ## Claim theorems -/

/-- Claim C3: `isRunning()` matches the specified truth table exactly:
false when `lastRunAt` is absent; true when `lastRunAt` is present and
`lastFinishedAt` absent; true when additionally `lockedAt` is present
and `lastRunAt` is strictly newer than `lastFinishedAt`; false in every
remaining case. -/
theorem isRunning_table_C3 (a : JobAttrs) :
    (a.lastRunAt = none → isRunning a = false)
  ∧ (∀ lr, a.lastRunAt = some lr → a.lastFinishedAt = none →
      isRunning a = true)
  ∧ (∀ lr lf, a.lastRunAt = some lr → a.lastFinishedAt = some lf →
      a.lockedAt.isSome = true → lf < lr → isRunning a = true)
  ∧ (∀ lr lf, a.lastRunAt = some lr → a.lastFinishedAt = some lf →
      ¬(a.lockedAt.isSome = true ∧ lf < lr) → isRunning a = false) := by
  refine ⟨?_, ?_, ?_, ?_⟩
  · intro h; simp [isRunning, h]
  · intro lr h1 h2; simp [isRunning, h1, h2]
  · intro lr lf h1 h2 h3 h4; simp [isRunning, h1, h2, h3, h4]
  · intro lr lf h1 h2 h3
    simp only [isRunning, h1, h2]
    by_cases hL : a.lockedAt.isSome = true
    · have hlt : ¬lf < lr := fun hlt => h3 ⟨hL, hlt⟩
      simp [hL, hlt]
    · simp only [Bool.not_eq_true] at hL
      simp [hL]

/-- Claim C3 witness: a job never run is not running. -/
theorem isRunning_table_C3_witness : isRunning jr0 = false :=
  (isRunning_table_C3 jr0).1 rfl

/-- Claim C5: `fail(reason)` extracts the message of a structured error
(and keeps a plain value as-is) into `failReason`, increments `failCount`
by exactly one, and stamps `failedAt` and `lastFinishedAt` with now;
two successive calls increment `failCount` by exactly two and leave
`failReason` at the second reason's message. -/
theorem fail_spec_C5 (a : JobAttrs) (r r2 : JSVal) (t t2 : Int) :
    ((fail a r t).failReason = some r.extractMessage)
  ∧ (∀ m, r = JSVal.errObj m → (fail a r t).failReason = some (.str m))
  ∧ (r.isError = false → (fail a r t).failReason = some r)
  ∧ ((fail a r t).failCount = some (a.failCount.getD 0 + 1))
  ∧ ((fail a r t).failedAt = some t)
  ∧ ((fail a r t).lastFinishedAt = some t)
  ∧ ((fail (fail a r t) r2 t2).failCount = some (a.failCount.getD 0 + 2))
  ∧ (∀ m2, r2 = JSVal.errObj m2 →
      (fail (fail a r t) r2 t2).failReason = some (.str m2)) := by
  refine ⟨rfl, ?_, ?_, rfl, rfl, rfl, by simp [fail], ?_⟩
  · intro m hm; subst hm; rfl
  · intro hr
    cases r with
    | str s => rfl
    | errObj m => simp [JSVal.isError] at hr
    | typeErr m => simp [JSVal.isError] at hr
  · intro m2 hm; subst hm; rfl

/-- Claim C5 witness: failing twice from a fresh record yields
`failCount = 2` and the second message. -/
theorem fail_spec_C5_witness :
    (fail (fail jr0 (.errObj "first") 10) (.errObj "second") 20).failCount =
      some 2
  ∧ (fail (fail jr0 (.errObj "first") 10) (.errObj "second") 20).failReason =
      some (.str "second") :=
  ⟨(fail_spec_C5 jr0 (.errObj "first") (.errObj "second") 10 20).2.2.2.2.2.2.1,
   (fail_spec_C5 jr0 (.errObj "first") (.errObj "second") 10 20).2.2.2.2.2.2.2
     "second" rfl⟩

/-- Claim C6: with a registered definition, `isExpired()` returns true
exactly when `lockedAt` is present and strictly older than now minus the
type's lease duration; a lease aged exactly the lease duration is not
expired, one unit older is. -/
theorem isExpired_spec_C6 (env : Env) (a : JobAttrs) (now : Int)
    (d : Definition) (hdef : env.definitions a.name = some d) :
    ((isExpired env a now = .ok true) ↔
      (∃ la, a.lockedAt = some la ∧ la < now - d.lockLifetime))
  ∧ (∀ la, a.lockedAt = some la → la = now - d.lockLifetime →
      isExpired env a now = .ok false)
  ∧ (∀ la, a.lockedAt = some la → la = now - d.lockLifetime - 1 →
      isExpired env a now = .ok true) := by
  refine ⟨?_, ?_, ?_⟩
  · constructor
    · intro h
      cases hl : a.lockedAt with
      | none => simp [isExpired, hdef, hl] at h
      | some la =>
        refine ⟨la, rfl, ?_⟩
        by_contra hlt
        simp [isExpired, hdef, hl, if_neg hlt] at h
    · rintro ⟨la, hl, hlt⟩
      simp [isExpired, hdef, hl, hlt]
  · intro la hl heq
    simp [isExpired, hdef, hl, heq]
  · intro la hl heq
    have : la < now - d.lockLifetime := by omega
    simp [isExpired, hdef, hl, this]

/-- Claim C6 witness: with a 600000 ms lease, a lock one unit older than
the deadline is expired and a lock exactly at the deadline is not. -/
theorem isExpired_spec_C6_witness :
    isExpired benignEnv { jr0 with lockedAt := some 0 } 600001 = .ok true
  ∧ isExpired benignEnv { jr0 with lockedAt := some 0 } 600000 = .ok false :=
  ⟨(isExpired_spec_C6 benignEnv { jr0 with lockedAt := some 0 } 600001
      { lockLifetime := 600000 } rfl).2.2 0 rfl (by norm_num),
   (isExpired_spec_C6 benignEnv { jr0 with lockedAt := some 0 } 600000
      { lockLifetime := 600000 } rfl).2.1 0 rfl (by norm_num)⟩

/-- Claim C4: `computeNextRunAt()` delegates to the interval strategy
when `repeatInterval` is set, else to the fixed-time strategy when
`repeatAt` is set, else clears `nextRunAt`; when the invoked strategy
raises, the error is not propagated (the function is total), `nextRunAt`
ends up absent, and `failCount` grows by exactly one via the
failure-accounting call, with `lastRunAt` untouched. -/
theorem computeNextRunAt_spec_C4 (env : Env) (a : JobAttrs) (now : Int) :
    (a.repeatInterval.isSome = true →
      (∀ t, env.computeFromInterval a = .ok t →
        computeNextRunAt env a now = { a with nextRunAt := some t })
    ∧ (∀ e, env.computeFromInterval a = .error e →
        computeNextRunAt env a now = fail { a with nextRunAt := none } e now
      ∧ (computeNextRunAt env a now).nextRunAt = none
      ∧ (computeNextRunAt env a now).failCount = some (a.failCount.getD 0 + 1)
      ∧ (computeNextRunAt env a now).lastRunAt = a.lastRunAt))
  ∧ (a.repeatInterval = none → a.repeatAt.isSome = true →
      (∀ t, env.computeFromRepeatAt a = .ok t →
        computeNextRunAt env a now = { a with nextRunAt := some t })
    ∧ (∀ e, env.computeFromRepeatAt a = .error e →
        computeNextRunAt env a now = fail { a with nextRunAt := none } e now
      ∧ (computeNextRunAt env a now).nextRunAt = none
      ∧ (computeNextRunAt env a now).failCount = some (a.failCount.getD 0 + 1)
      ∧ (computeNextRunAt env a now).lastRunAt = a.lastRunAt))
  ∧ (a.repeatInterval = none → a.repeatAt = none →
      computeNextRunAt env a now = { a with nextRunAt := none }) := by
  refine ⟨?_, ?_, ?_⟩
  · intro hI
    constructor
    · intro t hc; simp [computeNextRunAt, hI, hc]
    · intro e hc
      refine ⟨by simp [computeNextRunAt, hI, hc], ?_, ?_, ?_⟩ <;>
        simp [computeNextRunAt, hI, hc, fail]
  · intro hI hA
    constructor
    · intro t hc; simp [computeNextRunAt, hI, hA, hc]
    · intro e hc
      refine ⟨by simp [computeNextRunAt, hI, hA, hc], ?_, ?_, ?_⟩ <;>
        simp [computeNextRunAt, hI, hA, hc, fail]
  · intro hI hA
    simp [computeNextRunAt, hI, hA]

/-- Claim C4 witness: with the interval strategy returning 5000 the
record is rescheduled to 5000; with a throwing interval strategy the
record loses `nextRunAt` and gains one failure. -/
theorem computeNextRunAt_spec_C4_witness :
    computeNextRunAt benignEnv { jr0 with repeatInterval := some "5 minutes" } 0 =
      { jr0 with repeatInterval := some "5 minutes", nextRunAt := some 5000 }
  ∧ (computeNextRunAt
      { benignEnv with computeFromInterval := fun _ => .error (.errObj "bad spec") }
      { jr0 with repeatInterval := some "5 minutes" } 0).nextRunAt = none
  ∧ (computeNextRunAt
      { benignEnv with computeFromInterval := fun _ => .error (.errObj "bad spec") }
      { jr0 with repeatInterval := some "5 minutes" } 0).failCount = some 1 :=
  ⟨((computeNextRunAt_spec_C4 benignEnv
      { jr0 with repeatInterval := some "5 minutes" } 0).1 rfl).1 5000 rfl,
   (((computeNextRunAt_spec_C4
      { benignEnv with computeFromInterval := fun _ => .error (.errObj "bad spec") }
      { jr0 with repeatInterval := some "5 minutes" } 0).1 rfl).2
      (.errObj "bad spec") rfl).2.1,
   (((computeNextRunAt_spec_C4
      { benignEnv with computeFromInterval := fun _ => .error (.errObj "bad spec") }
      { jr0 with repeatInterval := some "5 minutes" } 0).1 rfl).2
      (.errObj "bad spec") rfl).2.2.1⟩

/-- Claim C8: `repeatEvery(interval, options)` with `skipImmediate`
recomputes `nextRunAt` exactly as `computeNextRunAt` would on the record
whose last-run anchor is the current `nextRunAt` (or now when absent),
and the temporary anchor is cleared afterwards: the resulting state is
that recomputation with `lastRunAt` reset to absent. -/
theorem repeatEvery_skipImmediate_C8 (env : Env) (a : JobAttrs)
    (interval : String) (options : RepeatOptions) (now : Int)
    (h : options.skipImmediate = true) :
    repeatEvery env a interval options now =
      { computeNextRunAt env
          { a with repeatInterval := some interval
                   repeatTimezone := options.timezone
                   lastRunAt := some (a.nextRunAt.getD now) } now
        with lastRunAt := none }
  ∧ (repeatEvery env a interval options now).lastRunAt = none := by
  constructor
  · simp [repeatEvery, h]
  · simp [repeatEvery, h]

/-- Claim C8 witness: skipping ahead on a fresh record anchors the
recomputation at the current `nextRunAt` and leaves no anchor behind. -/
theorem repeatEvery_skipImmediate_C8_witness :
    repeatEvery benignEnv jr0 "5 minutes" { timezone := none, skipImmediate := true } 0 =
      { computeNextRunAt benignEnv
          { jr0 with repeatInterval := some "5 minutes"
                     repeatTimezone := none
                     lastRunAt := some 1000 } 0
        with lastRunAt := none }
  ∧ (repeatEvery benignEnv jr0 "5 minutes"
      { timezone := none, skipImmediate := true } 0).lastRunAt = none :=
  repeatEvery_skipImmediate_C8 benignEnv jr0 "5 minutes"
    { timezone := none, skipImmediate := true } 0 rfl

/-- Claim C7: `touch(progress)` on a non-canceled job sets `lockedAt` to
now, records the progress value, and calls `saveJobState`; on a canceled
job it raises before mutating anything and without calling the store. -/
theorem touch_spec_C7 (saveResult : Except JSVal Unit)
    (canceled : Option String) (a : JobAttrs) (progress : Option Int)
    (now : Int) :
    (canceled = none →
      (touch saveResult canceled a progress now).attrs =
        { a with lockedAt := some now, progress := progress }
    ∧ (touch saveResult canceled a progress now).storeCalled = true)
  ∧ (∀ c, canceled = some c →
      (touch saveResult canceled a progress now).raised.isSome = true
    ∧ (touch saveResult canceled a progress now).attrs = a
    ∧ (touch saveResult canceled a progress now).storeCalled = false) := by
  constructor
  · intro h
    cases saveResult <;> simp [touch, h]
  · intro c h
    simp [touch, h]

/-- Claim C7 witness: a heartbeat on a canceled job raises and leaves the
record and store untouched; on a live job it locks and saves. -/
theorem touch_spec_C7_witness :
    ((touch (.ok ()) (some "shutdown") jr0 (some 50) 42).raised.isSome = true
  ∧ (touch (.ok ()) (some "shutdown") jr0 (some 50) 42).attrs = jr0
  ∧ (touch (.ok ()) (some "shutdown") jr0 (some 50) 42).storeCalled = false)
  ∧ (touch (.ok ()) none jr0 (some 50) 42).attrs =
      { jr0 with lockedAt := some 42, progress := some 50 }
  ∧ (touch (.ok ()) none jr0 (some 50) 42).storeCalled = true :=
  ⟨(touch_spec_C7 (.ok ()) (some "shutdown") jr0 (some 50) 42).2 "shutdown" rfl,
   ((touch_spec_C7 (.ok ()) none jr0 (some 50) 42).1 rfl).1,
   ((touch_spec_C7 (.ok ()) none jr0 (some 50) 42).1 rfl).2⟩

/-- Claim C10: the constructor defaults `nextRunAt` to now only when the
specification leaves it `undefined`; an explicit `null` comes through as
absent (the job will not run again), and an explicit timestamp comes
through unchanged. -/
theorem mkJobAttrs_nextRunAt_C10 (parsePriority : Option JSVal → Int)
    (args : JobSpecArgs) (now : Int) :
    (args.nextRunAt = JSField.null →
      (mkJobAttrs parsePriority args now).nextRunAt = none)
  ∧ (args.nextRunAt = JSField.undef →
      (mkJobAttrs parsePriority args now).nextRunAt = some now)
  ∧ (∀ t, args.nextRunAt = JSField.val t →
      (mkJobAttrs parsePriority args now).nextRunAt = some t) := by
  refine ⟨?_, ?_, ?_⟩ <;> intros <;> simp_all [mkJobAttrs]

/-- Claim C10 witness: a spec with `nextRunAt: null` yields a record
with `nextRunAt` absent rather than defaulted to now. -/
theorem mkJobAttrs_nextRunAt_C10_witness :
    (mkJobAttrs (fun _ => 0)
      { name := "sendEmail", priority := none, nextRunAt := JSField.null
        disabled := JSField.undef, lastRunAt := none, lastFinishedAt := none
        lockedAt := none, failCount := none, failReason := none
        failedAt := none, repeatInterval := none, repeatTimezone := none
        repeatAt := none, progress := none } 777).nextRunAt = none :=
  (mkJobAttrs_nextRunAt_C10 (fun _ => 0)
    { name := "sendEmail", priority := none, nextRunAt := JSField.null
      disabled := JSField.undef, lastRunAt := none, lastFinishedAt := none
      lockedAt := none, failCount := none, failReason := none
      failedAt := none, repeatInterval := none, repeatTimezone := none
      repeatAt := none, progress := none } 777).1 rfl

/-- Claim C1: when the registered handler throws, `failCount` starts at
zero, and the surrounding collaborators behave nominally (pre-execution
save succeeds, no listener throws, the recurrence strategy does not
raise), `run()` returns with `failCount = 1`, `lockedAt` absent,
`lastFinishedAt` set, no escaping exception, and the event trace
`start`, `start:name`, `fail`, `fail:name`, `complete`, `complete:name`
in that order. -/
theorem run_syncThrow_C1 (env : Env) (a : JobAttrs) (tStart tFinish : Int)
    (d : Definition) (e : JSVal)
    (hdef : env.definitions a.name = some d)
    (hhandler : env.handlerOutcome = .error e)
    (hfc : a.failCount.getD 0 = 0)
    (hsave : env.savePre = .ok ())
    (hemit : ∀ ev, env.emitThrows ev = none)
    (hrec : computeOk env { a with lastRunAt := some tStart } = true) :
    (run env a tStart tFinish).attrs.failCount = some 1
  ∧ (run env a tStart tFinish).attrs.lockedAt = none
  ∧ (run env a tStart tFinish).attrs.lastFinishedAt = some tFinish
  ∧ (run env a tStart tFinish).events =
      [Ev.start, Ev.startType a.name, Ev.failEv, Ev.failType a.name,
       Ev.complete, Ev.completeType a.name]
  ∧ (run env a tStart tFinish).raised = none := by
  obtain ⟨hfc2, hfr2, hlf2, hnm2, hlk2, hlr2⟩ :=
    computeNextRunAt_fields_of_ok env { a with lastRunAt := some tStart }
      tStart hrec
  simp only at hfc2 hnm2
  cases hsf : env.saveFinal <;>
    simp [run, runTryBlock, runCatchFinally, emitSeq, fail, hsave, hdef,
      hhandler, hemit, hnm2, hfc2, hfc, hsf]

/-- Claim C1 witness: a concrete nominal environment with a throwing
handler, starting from a fresh record. -/
theorem run_syncThrow_C1_witness :
    (run throwEnv jr0 0 1).attrs.failCount = some 1
  ∧ (run throwEnv jr0 0 1).attrs.lockedAt = none
  ∧ (run throwEnv jr0 0 1).attrs.lastFinishedAt = some 1
  ∧ (run throwEnv jr0 0 1).events =
      [Ev.start, Ev.startType "sendEmail", Ev.failEv, Ev.failType "sendEmail",
       Ev.complete, Ev.completeType "sendEmail"]
  ∧ (run throwEnv jr0 0 1).raised = none :=
  run_syncThrow_C1 throwEnv jr0 0 1 { lockLifetime := 600000 }
    (.errObj "boom") rfl rfl rfl rfl (fun _ => rfl) rfl

/-- Claim C2 counterexample: the pre-execution `saveJobState` sits
outside the try/finally of `run` (Job.js line 230), so a persistence
error there escapes `run` — the claim that no exception from the
Persistence Gateway propagates out of `run` is false. -/
theorem run_raises_C2_counterexample :
    (run preSaveErrorEnv jr0 0 1).raised = some (.errObj "db down") := by
  rfl

/-- Claim C2 (amended): `run()` raises nothing provided the
pre-execution `saveJobState` succeeds and no listener throws on the
`fail`, `fail:name`, `complete` or `complete:name` emissions; every
handler outcome, absent registry entry, `start`/`success` listener
throw, recurrence failure, and final-save persistence error is absorbed. -/
theorem run_noRaise_C2_amended (env : Env) (a : JobAttrs)
    (tStart tFinish : Int)
    (hsave : env.savePre = .ok ())
    (hf1 : env.emitThrows Ev.failEv = none)
    (hf2 : env.emitThrows (Ev.failType a.name) = none)
    (hc1 : env.emitThrows Ev.complete = none)
    (hc2 : env.emitThrows (Ev.completeType a.name) = none) :
    (run env a tStart tFinish).raised = none := by
  have hname :
      (computeNextRunAt env { a with lastRunAt := some tStart } tStart).name =
        a.name := by
    have h := (computeNextRunAt_frame env
      { a with lastRunAt := some tStart } tStart).1
    simpa using h
  have htry :
      (runTryBlock env (env.definitions a.name)
        (computeNextRunAt env { a with lastRunAt := some tStart } tStart)
        tFinish).1.name = a.name := by
    rw [(runTryBlock_frame env (env.definitions a.name)
      (computeNextRunAt env { a with lastRunAt := some tStart } tStart)
      tFinish).1, hname]
  simp only [run, hsave]
  exact runCatchFinally_raised_none env _ tFinish hf1
    (by rw [htry]; exact hf2) hc1 (by rw [htry]; exact hc2)

/-- Claim C2 (amended) witness: in the nominal environment `run` raises
nothing. -/
theorem run_noRaise_C2_amended_witness :
    (run benignEnv jr0 0 1).raised = none :=
  run_noRaise_C2_amended benignEnv jr0 0 1 rfl rfl rfl rfl rfl

/-- Claim C9 counterexample: `isExpired` dereferences the registry entry
without a guard (Job.js line 185), so a job whose type has no registered
entry makes `isExpired` crash with a runtime `TypeError` rather than a
defined error condition. -/
theorem isExpired_crash_C9_counterexample :
    isExpired noDefsEnv { jr0 with lockedAt := some 0 } 100 =
      .error (.typeErr "cannot read lockLifetime of undefined definition") := by
  rfl

/-- Claim C9 (amended): with no registered entry for the job's type,
`run` treats the lookup as the defined 'Undefined job' failure and still
returns normally (given nominal save/listeners), while `isExpired` — and
`isDead`, which delegates to it — dereference the absent entry and crash
with an unguarded type error. -/
theorem registry_absent_C9_amended (env : Env) (a : JobAttrs)
    (tStart tFinish now : Int)
    (hdef : env.definitions a.name = none)
    (hsave : env.savePre = .ok ())
    (hemit : ∀ ev, env.emitThrows ev = none) :
    (run env a tStart tFinish).raised = none
  ∧ (run env a tStart tFinish).attrs.failReason = some (.str "Undefined job")
  ∧ isExpired env a now =
      .error (.typeErr "cannot read lockLifetime of undefined definition")
  ∧ isDead env a now =
      .error (.typeErr "cannot read lockLifetime of undefined definition") := by
  refine ⟨?_, ?_, ?_, ?_⟩
  · cases hsf : env.saveFinal <;>
      simp [run, runTryBlock, runCatchFinally, emitSeq, fail,
        JSVal.extractMessage, hsave, hdef, hemit, hsf]
  · cases hsf : env.saveFinal <;>
      simp [run, runTryBlock, runCatchFinally, emitSeq, fail,
        JSVal.extractMessage, hsave, hdef, hemit, hsf]
  · simp [isExpired, hdef]
  · simp [isDead, isExpired, hdef]

/-- Claim C9 (amended) witness: a concrete empty registry. -/
theorem registry_absent_C9_amended_witness :
    (run noDefsEnv jr0 0 1).raised = none
  ∧ (run noDefsEnv jr0 0 1).attrs.failReason = some (.str "Undefined job")
  ∧ isExpired noDefsEnv jr0 100 =
      .error (.typeErr "cannot read lockLifetime of undefined definition")
  ∧ isDead noDefsEnv jr0 100 =
      .error (.typeErr "cannot read lockLifetime of undefined definition") :=
  registry_absent_C9_amended noDefsEnv jr0 0 1 100 rfl rfl (fun _ => rfl)

end Agenda
